import Mathlib

/-!
Shallow embedding of the permission resolution engine of the hms repository
(apps/permissions/models.py: Permission, UserPermission, GroupPermission and
the class methods UserPermission.has_permission and
UserPermission.get_user_permissions), together with the override-creation
path of apps/permissions/views.py (UserPermissionViewSet.perform_create via
the model-backed serializer).

Database rows are modelled as structures holding exactly the scalar and
foreign-key fields of the Django models; a foreign key is the primary key
of the referenced row.  Query-set operations (filter / exists / get) become
list operations; Django's objects.get returns the unique match, raises
DoesNotExist on zero matches and MultipleObjectsReturned on several, and
has_permission catches only the DoesNotExist variants, so the embedding of
has_permission returns Except String Bool with the uncaught
MultipleObjectsReturned surfacing as an error value.
-/

instance {ε α : Type} [DecidableEq ε] [DecidableEq α] : DecidableEq (Except ε α) := fun a b =>
  match a, b with
  | Except.ok x, Except.ok y => decidable_of_iff (x = y) (by simp)
  | Except.error e, Except.error f => decidable_of_iff (e = f) (by simp)
  | Except.ok _, Except.error _ => Decidable.isFalse (by intro h; cases h)
  | Except.error _, Except.ok _ => Decidable.isFalse (by intro h; cases h)

/-- django.contrib.contenttypes ContentType row: primary key plus the
(app_label, model) pair, which carries a uniqueness constraint. -/
structure ContentType where
  id : Nat
  app_label : String
  model : String
deriving DecidableEq

/-- Permission row (table custom_permissions): content_type is a foreign key
to ContentType; codename is unique; (content_type, operation) is unique. -/
structure Permission where
  id : Nat
  content_type : Nat
  operation : String
  codename : String
  name : String
  is_active : Bool
deriving DecidableEq

/-- UserPermission row (table user_permissions): a direct per-user override,
grant when is_granted is true, explicit denial when false.  (user, permission)
is unique.  The model stores granted_by and granted_at and nothing else: it
has no expiry field. -/
structure UserPermission where
  user : Nat
  permission : Nat
  is_granted : Bool
  granted_by : Option Nat
  granted_at : Nat
deriving DecidableEq

/-- GroupPermission row (table group_permissions): maps a django auth Group
(foreign key: group primary key) to a Permission.  (group, permission) is
unique.  No expiry field, and the referenced Group carries no active flag. -/
structure GroupPermission where
  group : Nat
  permission : Nat
  granted_by : Option Nat
  granted_at : Nat
deriving DecidableEq

/-- The slice of the custom User model that the permission engine reads:
primary key, authentication status, the is_superuser flag inherited from
AbstractUser, and the primary keys of the user's django auth groups
(user.groups.all()).  The engine reads no other user field. -/
structure User where
  id : Nat
  is_authenticated : Bool
  is_superuser : Bool
  groups : List Nat
deriving DecidableEq

/-- The database state the engine queries: the four tables above. -/
structure Store where
  content_types : List ContentType
  permissions : List Permission
  user_permissions : List UserPermission
  group_permissions : List GroupPermission
deriving DecidableEq

/-- Outcome of the code-resolution section of has_permission
(models.py lines 125-150): the permission uniquely matched, no match
(DoesNotExist, caught and turned into False), or several matches
(MultipleObjectsReturned, not caught). -/
inductive ResolveResult where
  | noMatch : ResolveResult
  | ambiguous : ResolveResult
  | found : Permission → ResolveResult
deriving DecidableEq

/-- Python str.split('.') over the character list of the string: always at
least one (possibly empty) part; a dot closes the current part. -/
def split_dot_chars : List Char → List String
  | [] => [""]
  | c :: rest =>
    let r := split_dot_chars rest
    if c = '.' then "" :: r
    else
      match r with
      | [] => [String.mk [c]]
      | sHead :: tl => String.mk (c :: sHead.data) :: tl

/-- permission_codename.split('.') of the source. -/
def split_code (code : String) : List String :=
  split_dot_chars code.data

/-- Lines 125-150 of models.py: split the codename on the dot.  Two parts:
Permission.objects.get(content_type__model=model_name, operation=operation,
is_active=True), a join on ContentType.  Three parts:
ContentType.objects.get(app_label=..., model=...) then
Permission.objects.get(content_type=ct, operation=..., is_active=True).
Any other number of parts returns False (here: noMatch). -/
def resolve_permission_code (s : Store) (permission_codename : String) : ResolveResult :=
  match split_code permission_codename with
  | [model_name, operation] =>
    match s.permissions.filter (fun p =>
        s.content_types.any (fun ct => ct.id == p.content_type && ct.model == model_name)
        && p.operation == operation && p.is_active) with
    | [] => ResolveResult.noMatch
    | [p] => ResolveResult.found p
    | _ => ResolveResult.ambiguous
  | [app_label, model_name, operation] =>
    match s.content_types.filter (fun ct => ct.app_label == app_label && ct.model == model_name) with
    | [] => ResolveResult.noMatch
    | [ct] =>
      match s.permissions.filter (fun p =>
          p.content_type == ct.id && p.operation == operation && p.is_active) with
      | [] => ResolveResult.noMatch
      | [p] => ResolveResult.found p
      | _ => ResolveResult.ambiguous
    | _ => ResolveResult.ambiguous
  | _ => ResolveResult.noMatch

/-- Lines 152-165 of models.py, after the permission has been resolved:
explicit denial row exists -> False; direct grant row exists -> True;
otherwise True iff some GroupPermission row links one of the user's groups
to the permission. -/
def UserPermission.decide_for_permission (s : Store) (user : User) (p : Permission) : Bool :=
  if s.user_permissions.any (fun up =>
      up.user == user.id && up.permission == p.id && up.is_granted == false) then
    false
  else if s.user_permissions.any (fun up =>
      up.user == user.id && up.permission == p.id && up.is_granted == true) then
    true
  else
    s.group_permissions.any (fun gp =>
      user.groups.contains gp.group && gp.permission == p.id)

/-- UserPermission.has_permission (models.py lines 116-165).  Unauthenticated
users are denied before any lookup.  The two except clauses catch only
DoesNotExist; a lookup matching several rows raises MultipleObjectsReturned,
embedded as the error value.  There is no superuser branch anywhere in the
method. -/
def UserPermission.has_permission (s : Store) (user : User) (permission_codename : String) :
    Except String Bool :=
  if user.is_authenticated = false then Except.ok false
  else
    match resolve_permission_code s permission_codename with
    | ResolveResult.noMatch => Except.ok false
    | ResolveResult.ambiguous => Except.error "MultipleObjectsReturned"
    | ResolveResult.found p => Except.ok (UserPermission.decide_for_permission s user p)

/-- Dereference the permission foreign key of an override or group row and
read its codename (perm.permission.codename in the source). -/
def codename_of (s : Store) (pid : Nat) : Option String :=
  (s.permissions.find? (fun p => p.id == pid)).map (fun p => p.codename)

/-- UserPermission.get_user_permissions (models.py lines 167-194): codenames
of the user's is_granted=True override rows, plus codenames of the group
rows of the user's groups whose permission id is not among the user's
is_granted=False override rows; collected into a set (here: dedup). -/
def UserPermission.get_user_permissions (s : Store) (user : User) : List String :=
  if user.is_authenticated = false then []
  else
    let direct_permissions := s.user_permissions.filter
      (fun up => up.user == user.id && up.is_granted == true)
    let direct_denied := (s.user_permissions.filter
      (fun up => up.user == user.id && up.is_granted == false)).map
      (fun up => up.permission)
    let group_rows := s.group_permissions.filter
      (fun gp => user.groups.contains gp.group && !(direct_denied.contains gp.permission))
    (direct_permissions.filterMap (fun up => codename_of s up.permission)
      ++ group_rows.filterMap (fun gp => codename_of s gp.permission)).dedup

/-- Replace the override table of a store, keeping the other tables. -/
def set_user_permissions (s : Store) (l : List UserPermission) : Store :=
  { s with user_permissions := l }

/-- Creation of an override row through the REST endpoint
(UserPermissionViewSet.perform_create, views.py lines 311-326): the
model-backed serializer validates that the permission foreign key exists and
enforces the unique_together ['user', 'permission'] constraint of the model
(models.py lines 108-110) as a uniqueness validation that rejects the request
when a row for the pair already exists; on success the new row is inserted.
There is no update-or-create: a duplicate request is an error. -/
def grant_user_permission (s : Store) (userId permissionId : Nat) (is_granted : Bool)
    (grantedBy : Option Nat) (grantedAt : Nat) : Except String Store :=
  if !(s.permissions.any (fun p => p.id == permissionId)) then
    Except.error "permission does not exist"
  else if s.user_permissions.any
      (fun up => up.user == userId && up.permission == permissionId) then
    Except.error "The fields user, permission must make a unique set."
  else
    Except.ok (set_user_permissions s
      (s.user_permissions ++ [⟨userId, permissionId, is_granted, grantedBy, grantedAt⟩]))

/-- Add one GroupPermission row to the store (the effect on the table of
GroupPermission creation, e.g. UserGroupViewSet.add_permission). -/
def add_group_permission (s : Store) (gp : GroupPermission) : Store :=
  { s with group_permissions := s.group_permissions ++ [gp] }

/-- Written from the spec's words for the effective-permission set
(getEffectivePermissions): a code is effective iff it is role/group-granted
or granted by a direct override, and is not covered by an is_granted=false
override.  Compared with the source's get_user_permissions in C8. -/
def effective_permissions_spec (s : Store) (u : User) (c : String) : Prop :=
  ((∃ gp ∈ s.group_permissions, gp.group ∈ u.groups ∧ codename_of s gp.permission = some c) ∨
   (∃ up ∈ s.user_permissions, up.user = u.id ∧ up.is_granted = true ∧
      codename_of s up.permission = some c)) ∧
  ¬(∃ up ∈ s.user_permissions, up.user = u.id ∧ up.is_granted = false ∧
      codename_of s up.permission = some c)

-- Concrete rows and stores used to evaluate the definitions on closed inputs.

def ct_patient : ContentType := ⟨1, "patients", "patient"⟩

def perm_patient_read : Permission := ⟨1, 1, "read", "patient.read", "Can read patient", true⟩

def demo_store : Store :=
  ⟨[ct_patient], [perm_patient_read], [], [⟨10, 1, none, 0⟩]⟩

def demo_user : User := ⟨7, true, false, [10]⟩

def c1_store : Store :=
  ⟨[ct_patient], [perm_patient_read], [⟨7, 1, false, none, 0⟩], [⟨10, 1, none, 0⟩]⟩

def c1_user : User := ⟨7, true, false, [10]⟩

def c2_store : Store := ⟨[ct_patient], [perm_patient_read], [], []⟩

def c2_user : User := ⟨7, true, true, []⟩

def c3_store : Store :=
  ⟨[⟨1, "patients", "record"⟩, ⟨2, "billing", "record"⟩],
   [⟨1, 1, "read", "record.read", "Can read patient record", true⟩,
    ⟨2, 2, "read", "billingrecord.read", "Can read billing record", true⟩],
   [], []⟩

def c3_user : User := ⟨7, true, false, []⟩

def c4_store : Store := ⟨[ct_patient], [perm_patient_read], [], [⟨10, 1, none, 0⟩]⟩

def c4_user : User := ⟨8, true, false, []⟩

def c5_store : Store := ⟨[ct_patient], [perm_patient_read], [], []⟩

def c5_granted : Store := ⟨[ct_patient], [perm_patient_read], [⟨7, 1, true, some 9, 0⟩], []⟩

def c5_user : User := ⟨7, true, false, []⟩

def c6_store : Store := ⟨[ct_patient], [perm_patient_read], [⟨7, 1, true, some 9, 0⟩], []⟩

def c6_user : User := ⟨7, true, false, []⟩

def c7_store : Store := ⟨[ct_patient], [perm_patient_read], [], [⟨10, 1, none, 0⟩]⟩

def c7_user : User := ⟨4, true, false, [10]⟩

def c8_store : Store :=
  ⟨[ct_patient,
    ⟨2, "appointments", "appointment"⟩],
   [perm_patient_read,
    ⟨2, 2, "read", "appointment.read", "Can read appointment", true⟩],
   [⟨7, 2, false, none, 0⟩],
   [⟨10, 1, none, 0⟩, ⟨10, 2, none, 0⟩]⟩

def c8_user : User := ⟨7, true, false, [10]⟩

def c9_store : Store := ⟨[ct_patient], [perm_patient_read], [], []⟩

def c9_granted : Store := ⟨[ct_patient], [perm_patient_read], [⟨7, 1, true, some 9, 0⟩], []⟩

def c9_user : User := ⟨7, true, false, []⟩

def c10_store : Store := ⟨[ct_patient], [perm_patient_read], [⟨7, 1, true, none, 0⟩], []⟩

def c10_user : User := ⟨7, true, false, [10]⟩

example : UserPermission.has_permission demo_store demo_user "patient.read" = Except.ok true := by
  decide

example : UserPermission.has_permission demo_store demo_user "patient.write" = Except.ok false := by
  decide

example : UserPermission.get_user_permissions demo_store demo_user = ["patient.read"] := by
  decide

/-- A singleton filter result is a member of the filtered list. -/
theorem mem_of_filter_eq_singleton {α : Type} (f : α → Bool) (l : List α) (q : α)
    (h : l.filter f = [q]) : q ∈ l := by
  have hq : q ∈ l.filter f := by rw [h]; exact List.mem_singleton.mpr rfl
  exact (List.mem_filter.mp hq).1

/-- A permission returned by the code-resolution section is a row of the
permission table. -/
theorem resolve_found_mem (s : Store) (code : String) (p : Permission)
    (h : resolve_permission_code s code = ResolveResult.found p) :
    p ∈ s.permissions := by
  unfold resolve_permission_code at h
  split at h
  · split at h
    · cases h
    · rename_i heq
      cases h
      exact mem_of_filter_eq_singleton _ _ _ heq
    · cases h
  · split at h
    · cases h
    · split at h
      · cases h
      · rename_i heq
        cases h
        exact mem_of_filter_eq_singleton _ _ _ heq
      · cases h
    · cases h
  · cases h

/-- When the user is authenticated and the code resolves to a unique
permission, has_permission returns the override/group decision for it. -/
theorem has_permission_eq_of_found (s : Store) (u : User) (code : String) (p : Permission)
    (hauth : u.is_authenticated = true)
    (hres : resolve_permission_code s code = ResolveResult.found p) :
    UserPermission.has_permission s u code =
      Except.ok (UserPermission.decide_for_permission s u p) := by
  unfold UserPermission.has_permission
  rw [hres, hauth]
  simp

/-- With unique codenames, the codename read through an override or group
row's foreign key determines the referenced permission id. -/
theorem codename_of_inj (s : Store)
    (hcode : ∀ p ∈ s.permissions, ∀ q ∈ s.permissions, p.codename = q.codename → p = q)
    (a b : Nat) (c : String) (ha : codename_of s a = some c) (hb : codename_of s b = some c) :
    a = b := by
  unfold codename_of at ha hb
  rcases hfa : s.permissions.find? (fun p => p.id == a) with _ | p <;> rw [hfa] at ha
  · cases ha
  rcases hfb : s.permissions.find? (fun p => p.id == b) with _ | q <;> rw [hfb] at hb
  · cases hb
  have hpc : p.codename = c := by simpa using ha
  have hqc : q.codename = c := by simpa using hb
  have hpmem : p ∈ s.permissions := List.mem_of_find?_eq_some hfa
  have hqmem : q ∈ s.permissions := List.mem_of_find?_eq_some hfb
  have hpa : p.id = a := by simpa using List.find?_some hfa
  have hqb : q.id = b := by simpa using List.find?_some hfb
  have hpq : p = q := hcode p hpmem q hqmem (hpc.trans hqc.symm)
  rw [← hpa, ← hqb, hpq]

/-- C1: for an authenticated user, once the requested code resolves to a
registered active permission p, an is_granted=false override row for
(user, p) forces the result false, whatever group grants exist in the
store — the explicit denial is tested before the group branch. -/
theorem c1_denial_dominates (s : Store) (u : User) (code : String) (p : Permission)
    (up : UserPermission)
    (hauth : u.is_authenticated = true)
    (hres : resolve_permission_code s code = ResolveResult.found p)
    (hmem : up ∈ s.user_permissions)
    (huser : up.user = u.id) (hperm : up.permission = p.id) (hden : up.is_granted = false) :
    UserPermission.has_permission s u code = Except.ok false := by
  have hany : (s.user_permissions.any (fun v =>
      v.user == u.id && v.permission == p.id && v.is_granted == false)) = true := by
    rw [List.any_eq_true]
    exact ⟨up, hmem, by simp [huser, hperm, hden]⟩
  have hdec : UserPermission.decide_for_permission s u p = false := by
    unfold UserPermission.decide_for_permission
    rw [hany]
    simp
  rw [has_permission_eq_of_found s u code p hauth hres, hdec]

/-- C1 witness: a group of the user grants patient.read, yet the explicit
denial row makes check false. -/
theorem c1_witness :
    UserPermission.has_permission c1_store c1_user "patient.read" = Except.ok false :=
  c1_denial_dominates c1_store c1_user "patient.read" perm_patient_read
    ⟨7, 1, false, none, 0⟩ (by decide) (by decide) (by decide) rfl rfl rfl

/-- C2 counterexample: the source has no superuser branch, so for a
superuser and a malformed one-part code the result is false, not true as
the claim demands for every code. -/
theorem c2_counterexample :
    c2_user.is_superuser = true ∧
    UserPermission.has_permission c2_store c2_user "invalidcode" = Except.ok false := by
  exact ⟨rfl, by decide⟩

/-- C2 amended: has_permission never reads is_superuser — the result is
unchanged under any value of the flag; superusers go through the same
resolution as everyone else, so an unresolvable code denies them too. -/
theorem c2_superuser_never_read (s : Store) (u : User) (b : Bool) (code : String) :
    UserPermission.has_permission s { u with is_superuser := b } code =
    UserPermission.has_permission s u code := rfl

/-- C4: deny-by-default — an authenticated user with no group memberships
and no override rows is denied every code that resolves to a registered
permission. -/
theorem c4_deny_by_default (s : Store) (u : User) (code : String) (p : Permission)
    (hauth : u.is_authenticated = true) (hgroups : u.groups = [])
    (hover : ∀ up ∈ s.user_permissions, up.user ≠ u.id)
    (hres : resolve_permission_code s code = ResolveResult.found p) :
    UserPermission.has_permission s u code = Except.ok false := by
  have hden : (s.user_permissions.any (fun v =>
      v.user == u.id && v.permission == p.id && v.is_granted == false)) = false := by
    rw [List.any_eq_false]
    intro v hv
    simp [hover v hv]
  have hgrant : (s.user_permissions.any (fun v =>
      v.user == u.id && v.permission == p.id && v.is_granted == true)) = false := by
    rw [List.any_eq_false]
    intro v hv
    simp [hover v hv]
  have hgrp : (s.group_permissions.any (fun gp =>
      u.groups.contains gp.group && gp.permission == p.id)) = false := by
    rw [List.any_eq_false]
    intro gp _
    simp [hgroups]
  have hdec : UserPermission.decide_for_permission s u p = false := by
    unfold UserPermission.decide_for_permission
    rw [hden, hgrant, hgrp]
    simp
  rw [has_permission_eq_of_found s u code p hauth hres, hdec]

/-- C4 witness: a fresh user (no groups, no overrides) is denied
patient.read even though the store registers it and a group grant for a
group the user is not in exists. -/
theorem c4_witness :
    UserPermission.has_permission c4_store c4_user "patient.read" = Except.ok false :=
  c4_deny_by_default c4_store c4_user "patient.read" perm_patient_read
    rfl rfl (by decide) (by decide)

theorem add_group_permission_user_permissions (s : Store) (gp : GroupPermission) :
    (add_group_permission s gp).user_permissions = s.user_permissions := rfl

theorem add_group_permission_group_permissions (s : Store) (gp : GroupPermission) :
    (add_group_permission s gp).group_permissions = s.group_permissions ++ [gp] := rfl

theorem set_user_permissions_user_permissions (s : Store) (l : List UserPermission) :
    (set_user_permissions s l).user_permissions = l := rfl

theorem set_user_permissions_group_permissions (s : Store) (l : List UserPermission) :
    (set_user_permissions s l).group_permissions = s.group_permissions := rfl

theorem set_user_permissions_permissions (s : Store) (l : List UserPermission) :
    (set_user_permissions s l).permissions = s.permissions := rfl

/-- Code resolution reads only the permission and content-type tables, so it
ignores the override table. -/
theorem resolve_set_user_permissions (s : Store) (l : List UserPermission) (code : String) :
    resolve_permission_code (set_user_permissions s l) code = resolve_permission_code s code := rfl

/-- Code resolution ignores the group-permission table. -/
theorem resolve_add_group_permission (s : Store) (gp : GroupPermission) (code : String) :
    resolve_permission_code (add_group_permission s gp) code = resolve_permission_code s code := rfl

/-- The override/group decision is true whenever a grant row is present and
no denial row is. -/
theorem decide_true_of_grant (s : Store) (u : User) (p : Permission)
    (hden : (s.user_permissions.any (fun v =>
      v.user == u.id && v.permission == p.id && v.is_granted == false)) = false)
    (hgr : (s.user_permissions.any (fun v =>
      v.user == u.id && v.permission == p.id && v.is_granted == true)) = true) :
    UserPermission.decide_for_permission s u p = true := by
  unfold UserPermission.decide_for_permission
  rw [hden, hgr]
  simp

/-- The override/group decision is true whenever no denial row is present
and a group row of one of the user's groups grants the permission. -/
theorem decide_true_of_group (s : Store) (u : User) (p : Permission)
    (hden : (s.user_permissions.any (fun v =>
      v.user == u.id && v.permission == p.id && v.is_granted == false)) = false)
    (hgrp : (s.group_permissions.any (fun gp =>
      u.groups.contains gp.group && gp.permission == p.id)) = true) :
    UserPermission.decide_for_permission s u p = true := by
  unfold UserPermission.decide_for_permission
  rw [hden, hgrp]
  cases hgr : (s.user_permissions.any (fun v =>
      v.user == u.id && v.permission == p.id && v.is_granted == true)) <;> simp [hgr]

/-- The user-unauthenticated short-circuit of has_permission. -/
theorem has_permission_unauth (s : Store) (u : User) (code : String)
    (h : u.is_authenticated = false) :
    UserPermission.has_permission s u code = Except.ok false := by
  unfold UserPermission.has_permission
  rw [h]
  simp

/-- An unresolvable code is denied for an arbitrary user. -/
theorem has_permission_noMatch (s : Store) (u : User) (code : String)
    (h : resolve_permission_code s code = ResolveResult.noMatch) :
    UserPermission.has_permission s u code = Except.ok false := by
  unfold UserPermission.has_permission
  rw [h]
  cases hauth : u.is_authenticated <;> simp [hauth]

/-- C10: adding one GroupPermission row never turns an allowed check into a
denial — the explicit denial branch is evaluated before the group branch and
does not read the group table, and the group branch is monotone in the group
rows. -/
theorem c10_group_grant_monotone (s : Store) (gp : GroupPermission) (u : User) (code : String)
    (h : UserPermission.has_permission s u code = Except.ok true) :
    UserPermission.has_permission (add_group_permission s gp) u code = Except.ok true := by
  cases hauth : u.is_authenticated
  · rw [has_permission_unauth s u code hauth] at h
    cases h
  · rcases hres : resolve_permission_code s code with _ | _ | p
    · rw [has_permission_noMatch s u code hres] at h
      cases h
    · unfold UserPermission.has_permission at h
      rw [hauth, hres] at h
      simp at h
    · rw [has_permission_eq_of_found s u code p hauth hres] at h
      have hd : UserPermission.decide_for_permission s u p = true := by
        exact (Except.ok.injEq _ _).mp h
      rw [has_permission_eq_of_found (add_group_permission s gp) u code p hauth
        ((resolve_add_group_permission s gp code).trans hres)]
      have hden : (s.user_permissions.any (fun v =>
          v.user == u.id && v.permission == p.id && v.is_granted == false)) = false := by
        cases hb : (s.user_permissions.any (fun v =>
            v.user == u.id && v.permission == p.id && v.is_granted == false))
        · rfl
        · unfold UserPermission.decide_for_permission at hd
          rw [hb] at hd
          simp at hd
      have hd2 : UserPermission.decide_for_permission (add_group_permission s gp) u p = true := by
        cases hgr : (s.user_permissions.any (fun v =>
            v.user == u.id && v.permission == p.id && v.is_granted == true))
        · unfold UserPermission.decide_for_permission at hd
          rw [hden, hgr, if_neg (by simp), if_neg (by simp)] at hd
          have hgrp2 : ((add_group_permission s gp).group_permissions.any (fun g2 =>
              u.groups.contains g2.group && g2.permission == p.id)) = true := by
            rw [add_group_permission_group_permissions, List.any_append, hd]
            simp
          exact decide_true_of_group (add_group_permission s gp) u p
            (by rw [add_group_permission_user_permissions]; exact hden) hgrp2
        · exact decide_true_of_grant (add_group_permission s gp) u p
            (by rw [add_group_permission_user_permissions]; exact hden)
            (by rw [add_group_permission_user_permissions]; exact hgr)
      rw [hd2]

/-- C10 witness: a user allowed through a direct grant stays allowed after a
new group-permission row is inserted. -/
theorem c10_witness :
    UserPermission.has_permission (add_group_permission c10_store ⟨10, 1, none, 0⟩) c10_user
      "patient.read" = Except.ok true :=
  c10_group_grant_monotone c10_store ⟨10, 1, none, 0⟩ c10_user "patient.read" (by decide)

/-- C6 counterexample: the claim says every code with a part count other
than two is denied for every non-superuser, but the source has a dedicated
three-part branch (app_label.model.operation): here a three-part code
resolves and an override grant makes check true for a non-superuser. -/
theorem c6_counterexample :
    c6_user.is_superuser = false ∧
    (split_code "patients.patient.read").length = 3 ∧
    UserPermission.has_permission c6_store c6_user "patients.patient.read" = Except.ok true := by
  exact ⟨rfl, by decide, by decide⟩

/-- C6 amended: the parser accepts exactly the two-part and three-part
dot-separated formats; for every code whose dot-split has any other number
of parts, has_permission returns false for every user, superuser or not. -/
theorem c6_amended_other_part_counts_denied (s : Store) (u : User) (code : String)
    (h2 : (split_code code).length ≠ 2) (h3 : (split_code code).length ≠ 3) :
    UserPermission.has_permission s u code = Except.ok false := by
  have hres : resolve_permission_code s code = ResolveResult.noMatch := by
    unfold resolve_permission_code
    split
    · rename_i heq
      exact absurd (by rw [heq]; rfl) h2
    · rename_i heq
      exact absurd (by rw [heq]; rfl) h3
    · rfl
  exact has_permission_noMatch s u code hres

/-- C6 amended witness: a four-part code is denied. -/
theorem c6_witness :
    UserPermission.has_permission c6_store c6_user "one.two.three.four" = Except.ok false :=
  c6_amended_other_part_counts_denied c6_store c6_user "one.two.three.four"
    (by decide) (by decide)

/-- C3 counterexample: the claim says check never raises and reduces every
ambiguity to deny, but the two-part branch catches only DoesNotExist.  With
two active permissions of the same operation whose content types share a
model name (a state the schema allows: distinct content-type rows, distinct
codenames, distinct (content_type, operation) pairs), the two-part lookup
matches both rows and raises MultipleObjectsReturned instead of returning a
boolean. -/
theorem c3_counterexample :
    UserPermission.has_permission c3_store c3_user "record.read" =
      Except.error "MultipleObjectsReturned" := by
  decide

/-- C3 amended: for every user and code, as long as code resolution is not
ambiguous (at most one row matches each get), has_permission returns a
boolean: unknown and malformed codes are caught and reduced to deny, only
MultipleObjectsReturned escapes. -/
theorem c3_amended_boolean_unless_ambiguous (s : Store) (u : User) (code : String)
    (h : resolve_permission_code s code ≠ ResolveResult.ambiguous) :
    ∃ b : Bool, UserPermission.has_permission s u code = Except.ok b := by
  cases hauth : u.is_authenticated
  · exact ⟨false, has_permission_unauth s u code hauth⟩
  · rcases hres : resolve_permission_code s code with _ | _ | p
    · exact ⟨false, has_permission_noMatch s u code hres⟩
    · exact absurd hres h
    · exact ⟨UserPermission.decide_for_permission s u p,
        has_permission_eq_of_found s u code p hauth hres⟩

/-- C3 amended witness: in the same two-content-type store, the three-part
form is unambiguous and check returns a boolean. -/
theorem c3_witness :
    ∃ b : Bool, UserPermission.has_permission c3_store c3_user "patients.record.read" =
      Except.ok b :=
  c3_amended_boolean_unless_ambiguous c3_store c3_user "patients.record.read" (by decide)

/-- C5 counterexample: the claim requires that a grant whose expires_at lies
in the past behaves as absent, so that check is false after the round trip.
But UserPermission and GroupPermission rows carry no expires_at at all
(fields: user, permission, is_granted, granted_by, granted_at), the grant
endpoint accepts no expiry, and has_permission never compares any stored
time against a clock.  The only grant the code supports produces a permanent
row: after it, check is true, where the claim demands false. -/
theorem c5_counterexample :
    grant_user_permission c5_store 7 1 true (some 9) 0 = Except.ok c5_granted ∧
    UserPermission.has_permission c5_granted c5_user "patient.read" = Except.ok true := by
  exact ⟨by decide, by decide⟩

/-- C5 amended: overrides never expire — a grant row keeps check true for
every value of its granted_at timestamp (the only time the row stores), so
no passage of time can turn the grant off; an assignment can stop mattering
only by being deleted. -/
theorem c5_amended_grants_never_expire (s : Store) (u : User) (code : String) (p : Permission)
    (gby : Option Nat) (t : Nat)
    (hauth : u.is_authenticated = true)
    (hres : resolve_permission_code s code = ResolveResult.found p)
    (hgrant : (⟨u.id, p.id, true, gby, t⟩ : UserPermission) ∈ s.user_permissions)
    (hnoden : ∀ up ∈ s.user_permissions, up.user = u.id → up.permission = p.id →
      up.is_granted = true) :
    UserPermission.has_permission s u code = Except.ok true := by
  have hden : (s.user_permissions.any (fun v =>
      v.user == u.id && v.permission == p.id && v.is_granted == false)) = false := by
    rw [List.any_eq_false]
    intro v hv
    by_cases h1 : v.user = u.id
    · by_cases h2 : v.permission = p.id
      · simp [h1, h2, hnoden v hv h1 h2]
      · simp [h2]
    · simp [h1]
  have hgr : (s.user_permissions.any (fun v =>
      v.user == u.id && v.permission == p.id && v.is_granted == true)) = true := by
    rw [List.any_eq_true]
    exact ⟨_, hgrant, by simp⟩
  rw [has_permission_eq_of_found s u code p hauth hres,
    decide_true_of_grant s u p hden hgr]

/-- C5 amended witness: the granted row with an arbitrarily old granted_at
timestamp still yields true. -/
theorem c5_witness :
    UserPermission.has_permission c5_granted c5_user "patient.read" = Except.ok true :=
  c5_amended_grants_never_expire c5_granted c5_user "patient.read" perm_patient_read
    (some 9) 0 rfl (by decide) (by decide) (by decide)

/-- C7 counterexample: the claim demands that a role/group that is inactive
confers nothing, but django auth Group rows carry only (id, name) and
neither has_permission nor GroupPermission stores or filters any activity
flag for groups.  No store state can mark a group inactive, and membership
alone confers the permission: here group 10 is the user's only source of
patient.read (the override table is empty) and check is true — under the
spec's reading of group 10 as inactive, the claim requires false. -/
theorem c7_counterexample :
    c7_store.user_permissions = [] ∧
    UserPermission.has_permission c7_store c7_user "patient.read" = Except.ok true := by
  exact ⟨rfl, by decide⟩

/-- C7 amended: the role-derived branch has no notion of group activity:
for a user with no override rows, membership in any group with a
GroupPermission row for the resolved permission makes check true,
unconditionally on any property of the group. -/
theorem c7_amended_membership_suffices (s : Store) (u : User) (code : String) (p : Permission)
    (gp : GroupPermission)
    (hauth : u.is_authenticated = true)
    (hres : resolve_permission_code s code = ResolveResult.found p)
    (hnoover : ∀ up ∈ s.user_permissions, up.user ≠ u.id)
    (hgp : gp ∈ s.group_permissions) (hgrp : gp.group ∈ u.groups)
    (hgperm : gp.permission = p.id) :
    UserPermission.has_permission s u code = Except.ok true := by
  have hden : (s.user_permissions.any (fun v =>
      v.user == u.id && v.permission == p.id && v.is_granted == false)) = false := by
    rw [List.any_eq_false]
    intro v hv
    simp [hnoover v hv]
  have hgrpany : (s.group_permissions.any (fun g2 =>
      u.groups.contains g2.group && g2.permission == p.id)) = true := by
    rw [List.any_eq_true]
    exact ⟨gp, hgp, by simp [hgrp, hgperm]⟩
  rw [has_permission_eq_of_found s u code p hauth hres,
    decide_true_of_group s u p hden hgrpany]

/-- C7 amended witness: group membership alone yields true. -/
theorem c7_witness :
    UserPermission.has_permission c7_store c7_user "patient.read" = Except.ok true :=
  c7_amended_membership_suffices c7_store c7_user "patient.read" perm_patient_read
    ⟨10, 1, none, 0⟩ rfl (by decide) (by decide) (by decide) (by decide) rfl

/-- C9 counterexample: the claim says the second identical grant call
upserts rather than creating a duplicate or failing, but the creation path
is a plain model-backed create under the unique_together constraint: the
second call is rejected as a validation error, it does not upsert. -/
theorem c9_counterexample :
    grant_user_permission c9_store 7 1 true (some 9) 0 = Except.ok c9_granted ∧
    grant_user_permission c9_granted 7 1 true (some 9) 5 =
      Except.error "The fields user, permission must make a unique set." := by
  exact ⟨by decide, by decide⟩

/-- C9 amended: after a first successful grant for (user, permission),
exactly one override row for the pair exists, any further grant call for the
same pair fails the unique-set validation and leaves the store unchanged,
and check remains true. -/
theorem c9_amended_second_grant_rejected (s : Store) (u : User) (code : String) (p : Permission)
    (gby : Option Nat) (t : Nat) (s2 : Store)
    (hauth : u.is_authenticated = true)
    (hres : resolve_permission_code s code = ResolveResult.found p)
    (hnopair : ∀ up ∈ s.user_permissions, ¬(up.user = u.id ∧ up.permission = p.id))
    (hgrant : grant_user_permission s u.id p.id true gby t = Except.ok s2) :
    (s2.user_permissions.filter (fun up => up.user == u.id && up.permission == p.id)).length = 1 ∧
    (∀ gby2 t2 b2, grant_user_permission s2 u.id p.id b2 gby2 t2 =
      Except.error "The fields user, permission must make a unique set.") ∧
    UserPermission.has_permission s2 u code = Except.ok true := by
  have hpmem := resolve_found_mem s code p hres
  have hfk : (s.permissions.any (fun q => q.id == p.id)) = true := by
    rw [List.any_eq_true]
    exact ⟨p, hpmem, by simp⟩
  have hpairany : (s.user_permissions.any (fun up =>
      up.user == u.id && up.permission == p.id)) = false := by
    rw [List.any_eq_false]
    intro up hup
    have hnp := hnopair up hup
    by_cases h1 : up.user = u.id
    · by_cases h2 : up.permission = p.id
      · exact absurd ⟨h1, h2⟩ hnp
      · simp [h2]
    · simp [h1]
  have hs2 : s2 = set_user_permissions s
      (s.user_permissions ++ [⟨u.id, p.id, true, gby, t⟩]) := by
    unfold grant_user_permission at hgrant
    rw [hfk, hpairany] at hgrant
    simp at hgrant
    exact hgrant.symm
  subst hs2
  refine ⟨?_, ?_, ?_⟩
  · rw [set_user_permissions_user_permissions, List.filter_append]
    have hnil : s.user_permissions.filter (fun up =>
        up.user == u.id && up.permission == p.id) = [] := by
      rw [List.filter_eq_nil_iff]
      intro up hup
      have := List.any_eq_false.mp hpairany up hup
      simpa using this
    rw [hnil]
    simp
  · intro gby2 t2 b2
    have hpairany2 : (((set_user_permissions s
        (s.user_permissions ++ [⟨u.id, p.id, true, gby, t⟩])).user_permissions).any
        (fun up => up.user == u.id && up.permission == p.id)) = true := by
      rw [set_user_permissions_user_permissions, List.any_append]
      simp
    unfold grant_user_permission
    rw [set_user_permissions_permissions, hfk, hpairany2]
    simp
  · have hres2 : resolve_permission_code (set_user_permissions s
        (s.user_permissions ++ [⟨u.id, p.id, true, gby, t⟩])) code =
        ResolveResult.found p := by
      rw [resolve_set_user_permissions]
      exact hres
    have hden2 : (((set_user_permissions s
        (s.user_permissions ++ [⟨u.id, p.id, true, gby, t⟩])).user_permissions).any
        (fun v => v.user == u.id && v.permission == p.id && v.is_granted == false)) = false := by
      rw [set_user_permissions_user_permissions, List.any_append]
      have h1 : (s.user_permissions.any (fun v =>
          v.user == u.id && v.permission == p.id && v.is_granted == false)) = false := by
        rw [List.any_eq_false]
        intro v hv
        have hnp := hnopair v hv
        by_cases e1 : v.user = u.id
        · by_cases e2 : v.permission = p.id
          · exact absurd ⟨e1, e2⟩ hnp
          · simp [e2]
        · simp [e1]
      rw [h1]
      simp
    have hgr2 : (((set_user_permissions s
        (s.user_permissions ++ [⟨u.id, p.id, true, gby, t⟩])).user_permissions).any
        (fun v => v.user == u.id && v.permission == p.id && v.is_granted == true)) = true := by
      rw [set_user_permissions_user_permissions, List.any_append]
      simp
    rw [has_permission_eq_of_found _ u code p hauth hres2,
      decide_true_of_grant _ u p hden2 hgr2]

/-- C9 amended witness: the concrete grant round trip on an empty override
table. -/
theorem c9_witness :
    ((c9_granted.user_permissions.filter (fun up =>
      up.user == 7 && up.permission == 1)).length = 1 ∧
    (∀ gby2 t2 b2, grant_user_permission c9_granted 7 1 b2 gby2 t2 =
      Except.error "The fields user, permission must make a unique set.") ∧
    UserPermission.has_permission c9_granted c9_user "patient.read" = Except.ok true) :=
  c9_amended_second_grant_rejected c9_store c9_user "patient.read" perm_patient_read
    (some 9) 0 c9_granted rfl (by decide) (by decide) (by decide)

/-- For an authenticated user, get_user_permissions is the deduplicated
append of the direct-grant codenames and the non-denied group codenames. -/
theorem get_user_permissions_eq (s : Store) (u : User) (h : u.is_authenticated = true) :
    UserPermission.get_user_permissions s u =
      ((s.user_permissions.filter (fun up => up.user == u.id && up.is_granted == true)).filterMap
          (fun up => codename_of s up.permission)
        ++ (s.group_permissions.filter (fun gp => u.groups.contains gp.group &&
            !(((s.user_permissions.filter (fun up =>
                up.user == u.id && up.is_granted == false)).map
                (fun up => up.permission)).contains gp.permission))).filterMap
          (fun gp => codename_of s gp.permission)).dedup := by
  unfold UserPermission.get_user_permissions
  rw [if_neg (by simp [h])]

/-- C8: for an authenticated user, under the schema's uniqueness invariants
(codenames unique, at most one override row per (user, permission) pair), a
code is in get_user_permissions exactly when it is group-granted or granted
by a direct override and is not covered by an is_granted=false override: a
role-granted code that is directly denied does not appear. -/
theorem c8_effective_permissions (s : Store) (u : User)
    (hauth : u.is_authenticated = true)
    (hcode : ∀ p ∈ s.permissions, ∀ q ∈ s.permissions, p.codename = q.codename → p = q)
    (hpair : ∀ up ∈ s.user_permissions, ∀ vp ∈ s.user_permissions,
      up.user = vp.user → up.permission = vp.permission → up = vp)
    (c : String) :
    c ∈ UserPermission.get_user_permissions s u ↔ effective_permissions_spec s u c := by
  rw [get_user_permissions_eq s u hauth, List.mem_dedup, List.mem_append]
  unfold effective_permissions_spec
  constructor
  · rintro (h1 | h2)
    · obtain ⟨up, hupf, hcn⟩ := List.mem_filterMap.mp h1
      obtain ⟨hupmem, hpred⟩ := List.mem_filter.mp hupf
      have hug : up.user = u.id ∧ up.is_granted = true := by
        have hp := hpred
        simp at hp
        exact hp
      refine ⟨Or.inr ⟨up, hupmem, hug.1, hug.2, hcn⟩, ?_⟩
      rintro ⟨vp, hvpmem, hvu, hvg, hvcn⟩
      have hsame : vp.permission = up.permission :=
        codename_of_inj s hcode vp.permission up.permission c hvcn hcn
      have hvpup : vp = up := hpair vp hvpmem up hupmem (hvu.trans hug.1.symm) hsame
      rw [hvpup, hug.2] at hvg
      simp at hvg
    · obtain ⟨gp, hgpf, hcn⟩ := List.mem_filterMap.mp h2
      obtain ⟨hgpmem, hpred⟩ := List.mem_filter.mp hgpf
      have hgnd : gp.group ∈ u.groups ∧ ∀ x ∈ s.user_permissions,
          x.user = u.id → x.is_granted = false → ¬x.permission = gp.permission := by
        have hp := hpred
        simp at hp
        exact hp
      refine ⟨Or.inl ⟨gp, hgpmem, hgnd.1, hcn⟩, ?_⟩
      rintro ⟨vp, hvpmem, hvu, hvg, hvcn⟩
      have hsame : vp.permission = gp.permission :=
        codename_of_inj s hcode vp.permission gp.permission c hvcn hcn
      exact hgnd.2 vp hvpmem hvu hvg hsame
  · rintro ⟨hpos, hneg⟩
    rcases hpos with ⟨gp, hgpmem, hin, hcn⟩ | ⟨up, hupmem, hu, hg, hcn⟩
    · right
      rw [List.mem_filterMap]
      refine ⟨gp, List.mem_filter.mpr ⟨hgpmem, ?_⟩, hcn⟩
      simp [hin]
      intro vp hvpmem hvu hvg hvperm
      exact hneg ⟨vp, hvpmem, hvu, hvg, by rw [hvperm]; exact hcn⟩
    · left
      rw [List.mem_filterMap]
      exact ⟨up, List.mem_filter.mpr ⟨hupmem, by simp [hu, hg]⟩, hcn⟩

/-- C8 witness: in a store where group 10 grants patient.read and
appointment.read but the user has a direct denial of appointment.read,
patient.read is effective, and the equivalence is instantiated on it. -/
theorem c8_witness :
    "patient.read" ∈ UserPermission.get_user_permissions c8_store c8_user ↔
      effective_permissions_spec c8_store c8_user "patient.read" :=
  c8_effective_permissions c8_store c8_user rfl (by decide) (by decide) "patient.read"
